import Mathlib

/-!
Verification development for the Memoet PostgreSQL timezone fix tool
(`fix_timezone.py`).

The script is a one-shot remediation utility: it scans the `srs_configs`
table for rows whose `timezone` column holds a legacy identifier (a key of
`TIMEZONE_MAPPING`), rewrites each such row to the canonical identifier,
re-reads the row to verify the write, emits a generated Elixir module
encoding the mapping, and reports a {fixed, failed} tally.

We embed the script shallowly:

* the `srs_configs` table is a `List Row`, where a `Row` carries the `id`
  and `timezone` columns plus an abstract `rest` field standing for every
  other column of the row;
* each database statement acts on the in-transaction view of the table
  (the script sets `autocommit = False`, so statements see their own
  uncommitted writes);
* fallible database statements are modelled with `Except`, and the
  script's `try/except psycopg2.Error` blocks are modelled by total
  wrapper functions that catch the `Except.error` branch;
* whether a given statement raises, and whether an external actor mutates
  the table between the UPDATE and the verification SELECT of one row, is
  supplied by an environment (`DbEnv`, `RunEnv`) quantified over in the
  theorems;
* the process-level flow of `main` (connect, probes, fix loop, artifact
  emission, final probe, disconnect, exit code) is `mainRun`.
-/

/-- A row of the `srs_configs` table: the `id` column, the `timezone`
column, and `rest`, an opaque stand-in for all remaining columns. -/
structure Row where
  id : String
  timezone : String
  rest : String
  deriving DecidableEq, Repr

/-- Database errors visible to the script (all are `psycopg2.Error`
subclasses at runtime; we keep just enough structure to distinguish the
empty-`IN`-list syntax error from a generic operational error). -/
inductive DBErr where
  /-- `psycopg2` renders an empty tuple as `()`, so `... IN ()` reaches the
  server and is rejected as a SQL syntax error. -/
  | emptyInSyntax
  /-- Any other database error raised by a statement. -/
  | queryError
  deriving DecidableEq, Repr

instance decEqExcept {ε α : Type} [DecidableEq ε] [DecidableEq α] :
    DecidableEq (Except ε α) := fun a b =>
  match a, b with
  | .ok x, .ok y =>
    if h : x = y then .isTrue (by rw [h])
    else .isFalse (fun hc => h (Except.ok.inj hc))
  | .error x, .error y =>
    if h : x = y then .isTrue (by rw [h])
    else .isFalse (fun hc => h (Except.error.inj hc))
  | .ok _, .error _ => .isFalse (fun hc => Except.noConfusion hc)
  | .error _, .ok _ => .isFalse (fun hc => Except.noConfusion hc)

/-- `TIMEZONE_MAPPING` from `fix_timezone.py`, in source order. -/
def TIMEZONE_MAPPING : List (String × String) :=
  [("US/Central", "America/Chicago"),
   ("US/Eastern", "America/New_York"),
   ("US/Mountain", "America/Denver"),
   ("US/Pacific", "America/Los_Angeles"),
   ("US/Alaska", "America/Anchorage"),
   ("US/Arizona", "America/Phoenix"),
   ("US/East-Indiana", "America/Indiana/Indianapolis"),
   ("US/Hawaii", "Pacific/Honolulu"),
   ("Canada/Atlantic", "America/Halifax"),
   ("Canada/Central", "America/Winnipeg"),
   ("Canada/Eastern", "America/Toronto"),
   ("Canada/Mountain", "America/Edmonton"),
   ("Canada/Newfoundland", "America/St_Johns"),
   ("Canada/Pacific", "America/Vancouver"),
   ("Canada/Saskatchewan", "America/Regina"),
   ("Canada/Yukon", "America/Whitehorse")]

/-- Python `dict` lookup `m[k]` / `k in m`, on the association list. -/
def mappingLookup (m : List (String × String)) (k : String) : Option String :=
  (m.find? (fun p => p.1 == k)).map (fun p => p.2)

/-- `SELECT id, timezone FROM srs_configs WHERE timezone IN %s` with the
mapping's key list, as issued by `get_invalid_timezones`.

`scanRaises` says whether the statement raises a database error (the
script has no `try/except` here, so the caller sees the error).  When the
key list is empty, `psycopg2` renders the parameter as `()` and the server
rejects the statement, so the empty-mapping case is an error, not an empty
result set. -/
def get_invalid_timezones (scanRaises : Bool) (table : List Row)
    (m : List (String × String)) : Except DBErr (List (String × String)) :=
  if scanRaises then .error .queryError
  else if m.isEmpty then .error .emptyInSyntax
  else .ok (((table.filter (fun r => m.any (fun p => p.1 == r.timezone))).map
    (fun r => (r.id, r.timezone))))

/-- `UPDATE srs_configs SET timezone = %s WHERE id = %s`: every row whose
`id` matches is rewritten (in a real deployment `id` is unique, but the
statement itself updates all matches). -/
def update_row (table : List Row) (uid newTz : String) : List Row :=
  table.map (fun r => if r.id == uid then { r with timezone := newTz } else r)

/-- `SELECT timezone FROM srs_configs WHERE id = %s` followed by
`fetchone()`: the first matching row's timezone, if any. -/
def select_timezone (table : List Row) (uid : String) : Option String :=
  (table.find? (fun r => r.id == uid)).map (fun r => r.timezone)

/-- Per-row nondeterminism supplied by the outside world for one
`fix_timezone` call: whether the UPDATE raises, whether the verification
SELECT raises, and how an external actor mutates the table in the window
between the UPDATE and the verification SELECT (`id` when no concurrent
actor intervenes). -/
structure DbEnv where
  updateRaises : Bool
  verifyRaises : Bool
  interfere : List Row → List Row

/-- The quiet environment: no statement raises, no external interference. -/
def cleanEnv : DbEnv := ⟨false, false, id⟩

/-- The constant quiet environment for a whole fix loop. -/
def cleanEnvF : Nat → DbEnv := fun _ => cleanEnv

/-- Result of `fix_timezone` for one row.  The Python function returns a
bare `bool`; the printed diagnostics distinguish the four exits, which we
keep as constructors. -/
inductive FixResult where
  /-- update applied and the read-back matched (`return True`). -/
  | fixed
  /-- guard: the timezone is not a key of the mapping (`return False`
  before any cursor work). -/
  | failedNoMapping
  /-- read-back missing or different from the expected value
  (`"Failed to update user"` branch). -/
  | failedVerifyMismatch
  /-- a `psycopg2.Error` was caught by the `except` clause. -/
  | failedDbError
  deriving DecidableEq, Repr

/-- The `try` block of `fix_timezone`: UPDATE, then (after possible
external interference) the verification SELECT.  An error carries the
table state left behind: an UPDATE that raises has no effect
(statement-level atomicity); if the verification SELECT raises, the
UPDATE and the interference have already happened. -/
def fix_timezone_body (env : DbEnv) (table : List Row) (uid newTz : String) :
    Except (DBErr × List Row) (Bool × List Row) :=
  if env.updateRaises then .error (.queryError, table)
  else
    let t2 := env.interfere (update_row table uid newTz)
    if env.verifyRaises then .error (.queryError, t2)
    else
      match select_timezone t2 uid with
      | some tz => .ok (tz == newTz, t2)
      | none => .ok (false, t2)

/-- `fix_timezone(user_id, old_timezone)`: mapping guard, then the `try`
block with its `except psycopg2.Error` handler turning any database error
into a `False` return.  Returns the result together with the
in-transaction table afterwards. -/
def fix_timezone (m : List (String × String)) (env : DbEnv) (table : List Row)
    (uid oldTz : String) : FixResult × List Row :=
  match mappingLookup m oldTz with
  | none => (.failedNoMapping, table)
  | some newTz =>
    match fix_timezone_body env table uid newTz with
    | .ok (true, t) => (.fixed, t)
    | .ok (false, t) => (.failedVerifyMismatch, t)
    | .error (_, t) => (.failedDbError, t)

/-- The run report accumulated by `fix_all_timezones`. -/
structure Report where
  fixed : Nat
  failed : Nat
  deriving DecidableEq, Repr

/-- The `for user_id, old_timezone in invalid_users` loop of
`fix_all_timezones`: each row is fixed under its own environment
(`envf i` for the i-th row), tallying into the counters and threading the
in-transaction table. -/
def fix_loop (m : List (String × String)) (envf : Nat → DbEnv) :
    List (String × String) → Nat → List Row → Nat → Nat → Report × List Row
  | [], _, table, fc, flc => (⟨fc, flc⟩, table)
  | (uid, tz) :: rest, i, table, fc, flc =>
    match fix_timezone m (envf i) table uid tz with
    | (.fixed, t) => fix_loop m envf rest (i + 1) t (fc + 1) flc
    | (_, t) => fix_loop m envf rest (i + 1) t fc (flc + 1)

/-- `fix_all_timezones()`: scan, early return of `{fixed: 0, failed: 0}`
when nothing matched, otherwise the fix loop.  A database error raised by
the scan propagates (there is no handler in this function). -/
def fix_all_timezones (m : List (String × String)) (scanRaises : Bool)
    (envf : Nat → DbEnv) (table : List Row) :
    Except DBErr (Report × List Row) :=
  match get_invalid_timezones scanRaises table m with
  | .error e => .error e
  | .ok pairs =>
    if pairs.isEmpty then .ok (⟨0, 0⟩, table)
    else .ok (fix_loop m envf pairs 0 table 0 0)

/-- The `try` block of `test_timezone_query`: the diagnostic
`SELECT date(now() at time zone 'utc' at time zone %s)` either raises or
returns one row (a SELECT of a scalar expression always yields a row). -/
def test_timezone_query_body (raises : Bool) : Except DBErr Bool :=
  if raises then .error .queryError else .ok true

/-- `test_timezone_query(timezone)`: the diagnostic probe with its
`except psycopg2.Error` handler returning `False`. -/
def test_timezone_query (raises : Bool) : Bool :=
  match test_timezone_query_body raises with
  | .ok b => b
  | .error _ => false

/-- The generated Elixir module's map literal inside
`generate_timezone_mapping_file` (the `@timezone_mapping` attribute of
`Memoet.Utils.TimezoneMapping`), transcribed in source order. -/
def artifact_timezone_mapping : List (String × String) :=
  [("US/Central", "America/Chicago"),
   ("US/Eastern", "America/New_York"),
   ("US/Mountain", "America/Denver"),
   ("US/Pacific", "America/Los_Angeles"),
   ("US/Alaska", "America/Anchorage"),
   ("US/Arizona", "America/Phoenix"),
   ("US/East-Indiana", "America/Indiana/Indianapolis"),
   ("US/Hawaii", "Pacific/Honolulu"),
   ("Canada/Atlantic", "America/Halifax"),
   ("Canada/Central", "America/Winnipeg"),
   ("Canada/Eastern", "America/Toronto"),
   ("Canada/Mountain", "America/Edmonton"),
   ("Canada/Newfoundland", "America/St_Johns"),
   ("Canada/Pacific", "America/Vancouver"),
   ("Canada/Saskatchewan", "America/Regina"),
   ("Canada/Yukon", "America/Whitehorse")]

/-- `normalize_timezone(timezone)` of the generated Elixir module:
`Map.get(@timezone_mapping, timezone, timezone)` — the mapped value for a
known key, otherwise the input itself. -/
def normalize_timezone (tz : String) : String :=
  match mappingLookup artifact_timezone_mapping tz with
  | some v => v
  | none => tz

/-- The connection as `connect()` configures it: `autocommit = False`, so
every statement acts on the in-transaction `pending` view, and nothing
reaches `committed` until an explicit `commit()` — which the script never
issues. -/
structure ConnState where
  committed : List Row
  pending : List Row

/-- `connection.close()` in `disconnect()`: the connection is closed with
the transaction still open, so the server rolls it back and only the
`committed` state survives.  (`fix_timezone.py` contains no
`connection.commit()` call anywhere.) -/
def closeConn (c : ConnState) : List Row :=
  c.committed

/-- Everything the outside world decides for one invocation of `main`:
whether `connect()` succeeds, whether each diagnostic probe raises,
whether the scan statement raises, the per-row environments of the fix
loop, and whether writing the mapping artifact file succeeds. -/
structure RunEnv where
  connectOk : Bool
  probe1Raises : Bool
  probe2Raises : Bool
  probe3Raises : Bool
  scanRaises : Bool
  rowEnv : Nat → DbEnv
  artifactWriteOk : Bool

/-- Observable outcome of one `main()` invocation: process exit code,
whether `disconnect()` ran, which steps of the run body were reached, the
report (when the fix loop completed), and the durable (committed) table
after the process ends. -/
structure RunOutcome where
  exitCode : Nat
  disconnected : Bool
  fixLoopRan : Bool
  artifactAttempted : Bool
  finalProbeRan : Bool
  report : Option Report
  committed : List Row
  deriving DecidableEq, Repr

/-- `main()`: connect (exit 1 on failure, before the `try` block, without
calling `disconnect`); then inside `try`: two probes, `fix_all_timezones`,
`generate_timezone_mapping_file`, one more probe; `except Exception`
prints and calls `sys.exit(1)`; `finally` always runs `disconnect()`.
`sys.exit` raises `SystemExit`, so the `finally` clause runs before the
process terminates with code 1.  The durable table is what `closeConn`
leaves: the script never commits, so it is the initial table on every
path. -/
def mainRun (env : RunEnv) (db : List Row) : RunOutcome :=
  if env.connectOk = false then
    { exitCode := 1, disconnected := false, fixLoopRan := false,
      artifactAttempted := false, finalProbeRan := false, report := none,
      committed := db }
  else
    let conn : ConnState := ⟨db, db⟩
    let _p1 := test_timezone_query env.probe1Raises
    let _p2 := test_timezone_query env.probe2Raises
    match fix_all_timezones TIMEZONE_MAPPING env.scanRaises env.rowEnv conn.pending with
    | .error _ =>
      -- the psycopg2.Error from the scan escapes fix_all_timezones and is
      -- caught by main's `except Exception`: report, sys.exit(1), finally
      -- disconnect (close rolls the open transaction back)
      { exitCode := 1, disconnected := true, fixLoopRan := true,
        artifactAttempted := false, finalProbeRan := false, report := none,
        committed := closeConn conn }
    | .ok (rep, pendingAfter) =>
      let connAfter : ConnState := ⟨conn.committed, pendingAfter⟩
      if env.artifactWriteOk = false then
        -- open() raises OSError: caught by `except Exception`, sys.exit(1),
        -- finally disconnect
        { exitCode := 1, disconnected := true, fixLoopRan := true,
          artifactAttempted := true, finalProbeRan := false, report := some rep,
          committed := closeConn connAfter }
      else
        let _p3 := test_timezone_query env.probe3Raises
        { exitCode := 0, disconnected := true, fixLoopRan := true,
          artifactAttempted := true, finalProbeRan := true, report := some rep,
          committed := closeConn connAfter }

/-- A table state is fully remediated when no row's timezone is a key of
the mapping (so the scan query matches nothing). -/
def NoLegacy (m : List (String × String)) (table : List Row) : Prop :=
  ∀ r ∈ table, mappingLookup m r.timezone = none

/-- The frame relation between the table after and before one per-row
operation targeting `uid`: same length, every row keeps its `id` and
`rest` columns, and every row whose `id` differs from `uid` is unchanged
in full. -/
def FramePreserved (uid : String) (after before : List Row) : Prop :=
  after.length = before.length ∧
    ∀ pr ∈ after.zip before,
      pr.1.id = pr.2.id ∧ pr.1.rest = pr.2.rest ∧ (pr.2.id ≠ uid → pr.1 = pr.2)

/-- The example table of spec §8: one legacy row, one already-canonical
row, one unknown identifier. -/
def demoTable : List Row :=
  [⟨"1", "US/Central", "cfg1"⟩,
   ⟨"2", "America/Chicago", "cfg2"⟩,
   ⟨"3", "US/Nonexistent", "cfg3"⟩]

/-- `demoTable` after the run: only row 1 rewritten. -/
def demoFixed : List Row :=
  [⟨"1", "America/Chicago", "cfg1"⟩,
   ⟨"2", "America/Chicago", "cfg2"⟩,
   ⟨"3", "US/Nonexistent", "cfg3"⟩]

/-- One-row table holding a legacy timezone. -/
def oneLegacyTable : List Row := [⟨"1", "US/Central", "cfg"⟩]

/-- `oneLegacyTable` after one successful fix pass. -/
def oneLegacyFixed : List Row := [⟨"1", "America/Chicago", "cfg"⟩]

/-- An external actor that reverts the whole table to `oneLegacyTable`
between the UPDATE and the verification SELECT. -/
def revertEnv : DbEnv := ⟨false, false, fun _ => oneLegacyTable⟩

/-- A per-row environment whose UPDATE statement raises. -/
def updateErrEnv : DbEnv := ⟨true, false, id⟩

/-- A run in which everything succeeds except writing the mapping
artifact file (e.g. the destination directory is missing). -/
def artifactFailEnv : RunEnv := ⟨true, false, false, false, false, cleanEnvF, false⟩

/-- A run in which the scan statement raises a database error. -/
def scanFailEnv : RunEnv := ⟨true, false, false, false, true, cleanEnvF, true⟩

/-! ## Helper lemmas -/

/-- `Option.isSome` is `false` exactly on `none` (spelled out for
rewriting). -/
theorem isSome_false_eq_none {o : Option String} (h : o.isSome = false) :
    o = none := by
  cases o with
  | none => rfl
  | some v => cases h

/-- The SQL `IN` membership test used by the scan agrees with definedness
of the dictionary lookup. -/
theorem any_eq_lookup_isSome (m : List (String × String)) (tz : String) :
    (m.any (fun p => p.1 == tz)) = (mappingLookup m tz).isSome := by
  induction m with
  | nil => rfl
  | cons p t ih =>
    simp only [List.any_cons, mappingLookup, List.find?_cons]
    cases hp : (p.1 == tz) <;> simp_all [mappingLookup]

/-- A successful lookup returns the second component of some mapping
entry. -/
theorem mappingLookup_some_val_mem {m : List (String × String)} {k v : String}
    (h : mappingLookup m k = some v) : ∃ p ∈ m, p.2 = v := by
  unfold mappingLookup at h
  cases hf : m.find? (fun p => p.1 == k) with
  | none => rw [hf] at h; cases h
  | some p =>
    rw [hf] at h
    simp only [Option.map_some'] at h
    exact ⟨p, List.mem_of_find?_eq_some hf, Option.some.inj h⟩

/-- With a non-empty mapping the scan succeeds and returns exactly the
filtered projection of the table. -/
theorem get_invalid_timezones_eq (table : List Row) (m : List (String × String))
    (hm : m ≠ []) :
    get_invalid_timezones false table m =
      .ok ((table.filter (fun r => m.any (fun p => p.1 == r.timezone))).map
          (fun r => (r.id, r.timezone))) := by
  cases m with
  | nil => exact absurd rfl hm
  | cons p t => rfl

/-- The table left behind by one `fix_timezone` call is either untouched
(guard or failed UPDATE) or the updated table as seen through the
interference window. -/
theorem fix_timezone_snd_cases (m : List (String × String)) (env : DbEnv)
    (table : List Row) (uid tz : String) :
    (fix_timezone m env table uid tz).2 = table ∨
      ∃ newTz, mappingLookup m tz = some newTz ∧
        (fix_timezone m env table uid tz).2 =
          env.interfere (update_row table uid newTz) := by
  obtain ⟨u, v, intf⟩ := env
  cases hm : mappingLookup m tz with
  | none => left; simp [fix_timezone, hm]
  | some newTz =>
    cases u with
    | true => left; simp [fix_timezone, fix_timezone_body, hm]
    | false =>
      refine Or.inr ⟨newTz, rfl, ?_⟩
      cases v with
      | true => simp [fix_timezone, fix_timezone_body, hm]
      | false =>
        simp only [fix_timezone, fix_timezone_body, hm]
        cases hsel : select_timezone (intf (update_row table uid newTz)) uid with
        | none => simp [hsel]
        | some found => cases hb : (found == newTz) <;> simp [hsel, hb]

/-- When neither statement raises, the table after `fix_timezone` is the
updated table as mutated by the interference window. -/
theorem fix_timezone_snd_of_lookup (m : List (String × String)) (env : DbEnv)
    (table : List Row) (uid tz newTz : String)
    (hm : mappingLookup m tz = some newTz)
    (hu : env.updateRaises = false) (hv : env.verifyRaises = false) :
    (fix_timezone m env table uid tz).2 =
      env.interfere (update_row table uid newTz) := by
  obtain ⟨u, v, intf⟩ := env
  simp only at hu hv
  subst hu hv
  simp only [fix_timezone, fix_timezone_body, hm]
  cases hsel : select_timezone (intf (update_row table uid newTz)) uid with
  | none => simp [hsel]
  | some found => cases hb : (found == newTz) <;> simp [hsel, hb]

/-- `FramePreserved` holds reflexively. -/
theorem framePreserved_refl (uid : String) (l : List Row) :
    FramePreserved uid l l := by
  refine ⟨rfl, ?_⟩
  induction l with
  | nil => intro pr h; cases h
  | cons a t ih =>
    intro pr h
    rw [List.zip_cons_cons] at h
    rcases List.mem_cons.mp h with h | h
    · subst h; exact ⟨rfl, rfl, fun _ => rfl⟩
    · exact ih pr h

/-- The UPDATE statement touches only the timezone column of the rows
whose `id` matches. -/
theorem framePreserved_update (uid newTz : String) (l : List Row) :
    FramePreserved uid (update_row l uid newTz) l := by
  refine ⟨by simp [update_row], ?_⟩
  induction l with
  | nil => intro pr h; cases h
  | cons a t ih =>
    intro pr h
    simp only [update_row, List.map_cons] at h
    rw [List.zip_cons_cons] at h
    rcases List.mem_cons.mp h with h | h
    · subst h
      by_cases ha : a.id = uid
      · exact ⟨by simp [ha], by simp [ha], fun hne => absurd ha hne⟩
      · have hb : (a.id == uid) = false := beq_eq_false_iff_ne.mpr ha
        exact ⟨by simp [hb], by simp [hb], fun _ => by simp [hb]⟩
    · exact ih pr h

/-- Every scanned row is tallied exactly once: the counters of the fix
loop add up to the number of rows it was given. -/
theorem fix_loop_count (m : List (String × String)) (envf : Nat → DbEnv) :
    ∀ (pairs : List (String × String)) (i : Nat) (table : List Row) (fc flc : Nat),
      (fix_loop m envf pairs i table fc flc).1.fixed
          + (fix_loop m envf pairs i table fc flc).1.failed
        = fc + flc + pairs.length := by
  intro pairs
  induction pairs with
  | nil => intro i table fc flc; simp [fix_loop]
  | cons hd rest ih =>
    intro i table fc flc
    obtain ⟨uid, tz⟩ := hd
    simp only [fix_loop]
    cases hft : fix_timezone m (envf i) table uid tz with
    | mk res t =>
      cases res <;> simp only [] <;> rw [ih] <;> simp [List.length_cons] <;> omega

/-- With a non-empty mapping, `fix_all_timezones` always returns a
report (no error escapes the fix loop). -/
theorem fix_all_timezones_ok (m : List (String × String)) (hm : m ≠ [])
    (envf : Nat → DbEnv) (table : List Row) :
    ∃ rep t, fix_all_timezones m false envf table = .ok (rep, t) := by
  unfold fix_all_timezones
  rw [get_invalid_timezones_eq table m hm]
  cases hp : ((table.filter (fun r => m.any (fun p => p.1 == r.timezone))).map
      (fun r => (r.id, r.timezone))).isEmpty with
  | true => exact ⟨⟨0, 0⟩, table, by simp [hp]⟩
  | false =>
    refine ⟨(fix_loop m envf ((table.filter (fun r => m.any (fun p => p.1 == r.timezone))).map
        (fun r => (r.id, r.timezone))) 0 table 0 0).1,
      (fix_loop m envf ((table.filter (fun r => m.any (fun p => p.1 == r.timezone))).map
        (fun r => (r.id, r.timezone))) 0 table 0 0).2, ?_⟩
    simp [hp]

/-- Processing the scanned worklist under the quiet environment leaves a
table in which no row's timezone is a mapping key: rows off the worklist
never had one, and rows on it end at a mapped canonical value, which is
never itself a key (hypothesis `hval`). -/
theorem fix_loop_clears (m : List (String × String))
    (hval : ∀ p ∈ m, mappingLookup m p.2 = none) :
    ∀ (pairs : List (String × String)) (i : Nat) (table : List Row) (fc flc : Nat),
      (∀ p ∈ pairs, (mappingLookup m p.2).isSome = true) →
      (∀ r ∈ table, mappingLookup m r.timezone = none ∨ r.id ∈ pairs.map Prod.fst) →
      NoLegacy m (fix_loop m cleanEnvF pairs i table fc flc).2 := by
  intro pairs
  induction pairs with
  | nil =>
    intro i table fc flc _ hpre r hr
    simp only [fix_loop] at hr
    rcases hpre r hr with h | h
    · exact h
    · simp at h
  | cons hd rest ih =>
    intro i table fc flc hscan hpre
    obtain ⟨uid, tz⟩ := hd
    obtain ⟨newTz, hnew⟩ := Option.isSome_iff_exists.mp (hscan (uid, tz) (by simp))
    have htab : (fix_timezone m (cleanEnvF i) table uid tz).2 =
        update_row table uid newTz := by
      simpa [cleanEnv, cleanEnvF] using
        fix_timezone_snd_of_lookup m (cleanEnvF i) table uid tz newTz hnew rfl rfl
    have hscanRest : ∀ p ∈ rest, (mappingLookup m p.2).isSome = true :=
      fun p hp => hscan p (List.mem_cons_of_mem _ hp)
    have hpreNext : ∀ r ∈ update_row table uid newTz,
        mappingLookup m r.timezone = none ∨ r.id ∈ rest.map Prod.fst := by
      intro r hr
      obtain ⟨r0, hr0, hfr⟩ := List.mem_map.mp hr
      by_cases hid : r0.id = uid
      · left
        have hrw : r = { r0 with timezone := newTz } := by
          rw [← hfr]; simp [hid]
        rw [hrw]
        obtain ⟨p, hpmem, hpv⟩ := mappingLookup_some_val_mem hnew
        simpa [hpv] using hval p hpmem
      · have hfr2 : r = r0 := by
          rw [← hfr]; simp [beq_eq_false_iff_ne.mpr hid]
        subst hfr2
        rcases hpre r hr0 with h | h
        · exact Or.inl h
        · right
          simp only [List.map_cons] at h
          rcases List.mem_cons.mp h with h | h
          · exact absurd h hid
          · exact h
    simp only [fix_loop]
    cases hft : fix_timezone m (cleanEnvF i) table uid tz with
    | mk res t =>
      have ht : t = update_row table uid newTz := by rw [hft] at htab; exact htab
      subst ht
      cases res <;>
        exact ih (i + 1) (update_row table uid newTz) _ _ hscanRest hpreNext

/-- A fully remediated table is invisible to the scan. -/
theorem get_invalid_timezones_of_noLegacy (m : List (String × String)) (hm : m ≠ [])
    (table : List Row) (h : NoLegacy m table) :
    get_invalid_timezones false table m = .ok [] := by
  rw [get_invalid_timezones_eq table m hm]
  have hfil : table.filter (fun r => m.any (fun p => p.1 == r.timezone)) = [] := by
    rw [List.filter_eq_nil_iff]
    intro r hr
    rw [any_eq_lookup_isSome, h r hr]
    simp
  rw [hfil]
  rfl

/-! ## Claim theorems -/

/-- C2: `fix_timezone` issues the UPDATE to the mapped canonical value
and then re-reads the same row; whatever state the verification SELECT
observes (including one changed by a concurrent external actor through
`env.interfere`), the call returns `fixed` only if the read-back equals
the canonical value exactly, and returns the verify-mismatch failure
otherwise. -/
theorem fix_timezone_verify_readback (m : List (String × String)) (env : DbEnv)
    (table : List Row) (uid oldTz newTz : String)
    (hu : env.updateRaises = false) (hv : env.verifyRaises = false)
    (hm : mappingLookup m oldTz = some newTz) :
    (select_timezone (env.interfere (update_row table uid newTz)) uid = some newTz →
      (fix_timezone m env table uid oldTz).1 = .fixed) ∧
    (select_timezone (env.interfere (update_row table uid newTz)) uid ≠ some newTz →
      (fix_timezone m env table uid oldTz).1 = .failedVerifyMismatch) := by
  obtain ⟨u, v, intf⟩ := env
  simp only at hu hv
  subst hu hv
  simp only [fix_timezone, fix_timezone_body, hm]
  cases hsel : select_timezone (intf (update_row table uid newTz)) uid with
  | none => exact ⟨fun hc => absurd hc (by simp), fun _ => by simp [hsel]⟩
  | some found =>
    constructor
    · intro hc
      have : found = newTz := Option.some.inj (hsel ▸ hc)
      simp [hsel, this]
    · intro hc
      have hne : found ≠ newTz := fun he => hc (by rw [he])
      simp [hsel, beq_eq_false_iff_ne.mpr hne]

/-- C2 witness: a concurrent actor reverts the row between the UPDATE
and the verification SELECT, and `fix_timezone` reports the verify
mismatch instead of `fixed`. -/
theorem fix_timezone_verify_readback_witness :
    (fix_timezone TIMEZONE_MAPPING revertEnv oneLegacyTable "1" "US/Central").1
      = FixResult.failedVerifyMismatch :=
  (fix_timezone_verify_readback TIMEZONE_MAPPING revertEnv oneLegacyTable "1"
    "US/Central" "America/Chicago" rfl rfl (by decide)).2 (by decide)

/-- C3 counterexample: with an empty mapping the scan does not return an
empty result set — the `IN ()` statement raises a database error, and
`fix_all_timezones` propagates it instead of reporting
`{fixed: 0, failed: 0}`. -/
theorem scan_empty_mapping_counterexample :
    get_invalid_timezones false demoTable [] ≠ .ok [] ∧
    fix_all_timezones [] false cleanEnvF demoTable ≠
      .ok (⟨0, 0⟩, demoTable) := by
  exact ⟨by decide, by decide⟩

/-- C3 (amended): with an empty mapping, `psycopg2` renders the `IN`
parameter as `()`, the server rejects the statement, and the resulting
database error propagates out of both the scan and `fix_all_timezones`
(no report is produced). -/
theorem scan_empty_mapping_raises (table : List Row) (envf : Nat → DbEnv) :
    get_invalid_timezones false table [] = .error .emptyInSyntax ∧
    fix_all_timezones [] false envf table = .error .emptyInSyntax :=
  ⟨rfl, rfl⟩

/-- C4: running `fix_all_timezones` under the quiet environment and then
running it again yields the report `{fixed: 0, failed: 0}` and leaves the
table unchanged on the second run: the scan only matches mapping keys,
and the first run rewrote every matching row to a mapped canonical value,
which is never itself a mapping key. -/
theorem fix_all_timezones_idempotent (table t1 : List Row) (rep : Report)
    (h : fix_all_timezones TIMEZONE_MAPPING false cleanEnvF table = .ok (rep, t1)) :
    fix_all_timezones TIMEZONE_MAPPING false cleanEnvF t1 = .ok (⟨0, 0⟩, t1) := by
  have hm : TIMEZONE_MAPPING ≠ [] := by decide
  have hval : ∀ p ∈ TIMEZONE_MAPPING, mappingLookup TIMEZONE_MAPPING p.2 = none := by
    decide
  have hnl : NoLegacy TIMEZONE_MAPPING t1 := by
    unfold fix_all_timezones at h
    rw [get_invalid_timezones_eq table TIMEZONE_MAPPING hm] at h
    by_cases hp : ((table.filter
        (fun r => TIMEZONE_MAPPING.any (fun p => p.1 == r.timezone))).map
        (fun r => (r.id, r.timezone))).isEmpty = true
    · simp only [hp, if_true] at h
      simp only [Except.ok.injEq, Prod.mk.injEq] at h
      obtain ⟨hrep, htab⟩ := h
      subst htab
      intro r hr
      have hnil : (table.filter
          (fun r => TIMEZONE_MAPPING.any (fun p => p.1 == r.timezone))).map
          (fun r => (r.id, r.timezone)) = [] := List.isEmpty_iff.mp hp
      have hfil : table.filter
          (fun r => TIMEZONE_MAPPING.any (fun p => p.1 == r.timezone)) = [] := by
        simpa using hnil
      have hno : ¬(TIMEZONE_MAPPING.any (fun p => p.1 == r.timezone) = true) :=
        (List.filter_eq_nil_iff.mp hfil) r hr
      rw [any_eq_lookup_isSome] at hno
      exact isSome_false_eq_none (by simpa using hno)
    · rw [Bool.not_eq_true] at hp
      simp only [hp, Bool.false_eq_true, if_false, Except.ok.injEq] at h
      have hscanPairs : ∀ p ∈ ((table.filter
          (fun r => TIMEZONE_MAPPING.any (fun q => q.1 == r.timezone))).map
          (fun r => (r.id, r.timezone))),
          (mappingLookup TIMEZONE_MAPPING p.2).isSome = true := by
        intro p hp2
        obtain ⟨r, hrf, hrp⟩ := List.mem_map.mp hp2
        have hany := (List.mem_filter.mp hrf).2
        rw [← hrp, ← any_eq_lookup_isSome]
        exact hany
      have hpre : ∀ r ∈ table, mappingLookup TIMEZONE_MAPPING r.timezone = none ∨
          r.id ∈ (((table.filter
            (fun r => TIMEZONE_MAPPING.any (fun q => q.1 == r.timezone))).map
            (fun r => (r.id, r.timezone))).map Prod.fst) := by
        intro r hr
        cases hcase : (mappingLookup TIMEZONE_MAPPING r.timezone).isSome with
        | false => exact Or.inl (isSome_false_eq_none hcase)
        | true =>
          right
          have hany : TIMEZONE_MAPPING.any (fun p => p.1 == r.timezone) = true := by
            rw [any_eq_lookup_isSome]; exact hcase
          have hrf : r ∈ table.filter
              (fun r => TIMEZONE_MAPPING.any (fun p => p.1 == r.timezone)) :=
            List.mem_filter.mpr ⟨hr, hany⟩
          have hmem := List.mem_map_of_mem (fun r => (r.id, r.timezone)) hrf
          simpa using List.mem_map_of_mem Prod.fst hmem
      have hclear := fix_loop_clears TIMEZONE_MAPPING hval _ 0 table 0 0
        hscanPairs hpre
      rw [h] at hclear
      exact hclear
  unfold fix_all_timezones
  rw [get_invalid_timezones_of_noLegacy TIMEZONE_MAPPING hm t1 hnl]
  rfl

/-- C4 witness: a one-row table is fixed by the first run, and the
second run reports zero fixed and zero failed. -/
theorem fix_all_timezones_idempotent_witness :
    fix_all_timezones TIMEZONE_MAPPING false cleanEnvF oneLegacyFixed =
      .ok (⟨0, 0⟩, oneLegacyFixed) :=
  fix_all_timezones_idempotent oneLegacyTable oneLegacyFixed ⟨1, 0⟩ (by decide)

/-- C5: a database error raised during the UPDATE or the verification
SELECT is caught inside `fix_timezone` and converted to the
database-error failure, and `fix_all_timezones` (with a working scan)
always returns a report whose tallies account for every scanned row — no
per-row error escapes the batch. -/
theorem per_row_errors_contained :
    (∀ (m : List (String × String)) (env : DbEnv) (table : List Row)
        (uid tz newTz : String),
      mappingLookup m tz = some newTz →
      env.updateRaises = true ∨ env.verifyRaises = true →
      (fix_timezone m env table uid tz).1 = .failedDbError) ∧
    (∀ (m : List (String × String)) (envf : Nat → DbEnv) (table : List Row),
      m ≠ [] →
      ∃ rep t, fix_all_timezones m false envf table = .ok (rep, t) ∧
        rep.fixed + rep.failed =
          (table.filter (fun r => m.any (fun p => p.1 == r.timezone))).length) := by
  constructor
  · intro m env table uid tz newTz hm herr
    obtain ⟨u, v, intf⟩ := env
    cases u with
    | true => simp [fix_timezone, fix_timezone_body, hm]
    | false =>
      cases v with
      | true => simp [fix_timezone, fix_timezone_body, hm]
      | false => rcases herr with h | h <;> simp at h
  · intro m envf table hm
    unfold fix_all_timezones
    rw [get_invalid_timezones_eq table m hm]
    by_cases hp : ((table.filter (fun r => m.any (fun p => p.1 == r.timezone))).map
        (fun r => (r.id, r.timezone))).isEmpty = true
    · refine ⟨⟨0, 0⟩, table, by simp [hp], ?_⟩
      have hfil : table.filter (fun r => m.any (fun p => p.1 == r.timezone)) = [] := by
        simpa using List.isEmpty_iff.mp hp
      simp [hfil]
    · rw [Bool.not_eq_true] at hp
      refine ⟨(fix_loop m envf
          ((table.filter (fun r => m.any (fun p => p.1 == r.timezone))).map
            (fun r => (r.id, r.timezone))) 0 table 0 0).1,
        (fix_loop m envf
          ((table.filter (fun r => m.any (fun p => p.1 == r.timezone))).map
            (fun r => (r.id, r.timezone))) 0 table 0 0).2, by simp [hp], ?_⟩
      have hcount := fix_loop_count m envf
        ((table.filter (fun r => m.any (fun p => p.1 == r.timezone))).map
          (fun r => (r.id, r.timezone))) 0 table 0 0
      simpa using hcount

/-- C5 witness: a raising UPDATE is reported as the database-error
failure, and the loop on a concrete table returns a complete tally. -/
theorem per_row_errors_contained_witness :
    (fix_timezone TIMEZONE_MAPPING updateErrEnv oneLegacyTable "1" "US/Central").1
        = FixResult.failedDbError ∧
    ∃ rep t, fix_all_timezones TIMEZONE_MAPPING false cleanEnvF oneLegacyTable =
        .ok (rep, t) ∧
      rep.fixed + rep.failed =
        (oneLegacyTable.filter
          (fun r => TIMEZONE_MAPPING.any (fun p => p.1 == r.timezone))).length :=
  ⟨per_row_errors_contained.1 TIMEZONE_MAPPING updateErrEnv oneLegacyTable "1"
      "US/Central" "America/Chicago" (by decide) (Or.inl rfl),
   per_row_errors_contained.2 TIMEZONE_MAPPING cleanEnvF oneLegacyTable (by decide)⟩

/-- C6: the scan returns exactly the rows whose timezone is a key of the
mapping, and on the spec's three-row example it returns only row 1,
`fix_all_timezones` reports one fixed and zero failed, and row 1 then
reads "America/Chicago". -/
theorem scan_membership_exact :
    (∀ (table : List Row) (m : List (String × String)), m ≠ [] →
      get_invalid_timezones false table m =
        .ok ((table.filter (fun r => (mappingLookup m r.timezone).isSome)).map
          (fun r => (r.id, r.timezone)))) ∧
    get_invalid_timezones false demoTable TIMEZONE_MAPPING =
      .ok [("1", "US/Central")] ∧
    fix_all_timezones TIMEZONE_MAPPING false cleanEnvF demoTable =
      .ok (⟨1, 0⟩, demoFixed) ∧
    select_timezone demoFixed "1" = some "America/Chicago" := by
  refine ⟨?_, by decide, by decide, by decide⟩
  intro table m hm
  rw [get_invalid_timezones_eq table m hm]
  have hfc : table.filter (fun r => m.any (fun p => p.1 == r.timezone)) =
      table.filter (fun r => (mappingLookup m r.timezone).isSome) :=
    List.filter_congr (fun r _ => any_eq_lookup_isSome m r.timezone)
  rw [hfc]

/-- C6 witness: the characterization instantiated on the example table
and the real mapping. -/
theorem scan_membership_exact_witness :
    get_invalid_timezones false demoTable TIMEZONE_MAPPING =
      .ok ((demoTable.filter
          (fun r => (mappingLookup TIMEZONE_MAPPING r.timezone).isSome)).map
        (fun r => (r.id, r.timezone))) :=
  scan_membership_exact.1 demoTable TIMEZONE_MAPPING (by decide)

/-- C9: the generated artifact embeds the same mapping as the tool, and
its lookup function is total with identity as the default: known keys map
to their canonical value, every other string is returned unchanged. -/
theorem normalize_timezone_total_identity :
    artifact_timezone_mapping = TIMEZONE_MAPPING ∧
    (∀ k v, mappingLookup artifact_timezone_mapping k = some v →
      normalize_timezone k = v) ∧
    (∀ s, mappingLookup artifact_timezone_mapping s = none →
      normalize_timezone s = s) := by
  refine ⟨rfl, ?_, ?_⟩
  · intro k v h; simp [normalize_timezone, h]
  · intro s h; simp [normalize_timezone, h]

/-- C9 witness: a known legacy key maps to its canonical value, an
unknown identifier is returned unchanged. -/
theorem normalize_timezone_total_identity_witness :
    normalize_timezone "US/Central" = "America/Chicago" ∧
    normalize_timezone "Europe/Paris" = "Europe/Paris" :=
  ⟨normalize_timezone_total_identity.2.1 "US/Central" "America/Chicago" (by decide),
   normalize_timezone_total_identity.2.2 "Europe/Paris" (by decide)⟩

/-- C10: absent external interference, one `fix_timezone` call preserves
the frame — same number of rows, every row keeps its `id` and `rest`
columns, rows with a different `id` are untouched — and when it returns
the no-mapping failure the table is entirely unchanged. -/
theorem fix_timezone_frame (m : List (String × String)) (env : DbEnv)
    (table : List Row) (uid tz : String) (hid : env.interfere = id) :
    FramePreserved uid (fix_timezone m env table uid tz).2 table ∧
    ((fix_timezone m env table uid tz).1 = .failedNoMapping →
      (fix_timezone m env table uid tz).2 = table) := by
  constructor
  · rcases fix_timezone_snd_cases m env table uid tz with h | ⟨newTz, hm, h⟩
    · rw [h]; exact framePreserved_refl uid table
    · rw [h, hid]; exact framePreserved_update uid newTz table
  · intro hres
    obtain ⟨u, v, intf⟩ := env
    cases hm : mappingLookup m tz with
    | none => simp [fix_timezone, hm]
    | some newTz =>
      exfalso
      cases u with
      | true => simp [fix_timezone, fix_timezone_body, hm] at hres
      | false =>
        cases v with
        | true => simp [fix_timezone, fix_timezone_body, hm] at hres
        | false =>
          simp only [fix_timezone, fix_timezone_body, hm] at hres
          cases hsel : select_timezone (intf (update_row table uid newTz)) uid with
          | none => simp [hsel] at hres
          | some found => cases hb : (found == newTz) <;> simp [hsel, hb] at hres

/-- C10 witness: on the example table, fixing row 1 preserves the frame,
and an unmapped timezone leaves the table untouched. -/
theorem fix_timezone_frame_witness :
    FramePreserved "1"
      (fix_timezone TIMEZONE_MAPPING cleanEnv demoTable "1" "US/Central").2
      demoTable ∧
    (fix_timezone TIMEZONE_MAPPING cleanEnv demoTable "1" "US/Nonexistent").2 =
      demoTable :=
  ⟨(fix_timezone_frame TIMEZONE_MAPPING cleanEnv demoTable "1" "US/Central" rfl).1,
   (fix_timezone_frame TIMEZONE_MAPPING cleanEnv demoTable "1" "US/Nonexistent"
      rfl).2 (by decide)⟩

/-- C7: a database error inside the diagnostic probe is caught and
reported as a failure (`false`), and failed probes do not gate the rest
of the run: with both initial probes raising, the fix loop, the artifact
emission and the final probe still execute and the process exits 0. -/
theorem probe_errors_nonfatal (table : List Row) (p1 p2 p3 : Bool)
    (rowEnvs : Nat → DbEnv) :
    test_timezone_query true = false ∧
    ((mainRun ⟨true, p1, p2, p3, false, rowEnvs, true⟩ table).fixLoopRan = true ∧
     (mainRun ⟨true, p1, p2, p3, false, rowEnvs, true⟩ table).artifactAttempted = true ∧
     (mainRun ⟨true, p1, p2, p3, false, rowEnvs, true⟩ table).finalProbeRan = true ∧
     (mainRun ⟨true, p1, p2, p3, false, rowEnvs, true⟩ table).exitCode = 0) := by
  refine ⟨rfl, ?_⟩
  obtain ⟨rep, t, hok⟩ := fix_all_timezones_ok TIMEZONE_MAPPING (by decide) rowEnvs table
  simp [mainRun, hok]

/-- C8: once connected, an uncaught error in the run body (a raising
scan or a failed artifact write) yields exit code 1, a clean run yields
exit code 0, and `disconnect` runs in every one of these cases. -/
theorem run_exit_and_disconnect (table : List Row) (env : RunEnv)
    (hc : env.connectOk = true) :
    ((env.scanRaises = true ∨ env.artifactWriteOk = false) →
      (mainRun env table).exitCode = 1 ∧ (mainRun env table).disconnected = true) ∧
    (env.scanRaises = false → env.artifactWriteOk = true →
      (mainRun env table).exitCode = 0 ∧ (mainRun env table).disconnected = true) := by
  obtain ⟨c, p1, p2, p3, sc, re, aw⟩ := env
  cases c with
  | false => simp at hc
  | true =>
    cases sc with
    | true =>
      have herr : fix_all_timezones TIMEZONE_MAPPING true re table =
          .error .queryError := rfl
      simp [mainRun, herr]
    | false =>
      obtain ⟨rep, t, hok⟩ := fix_all_timezones_ok TIMEZONE_MAPPING (by decide) re table
      cases aw with
      | false => simp [mainRun, hok]
      | true => simp [mainRun, hok]

/-- C8 witness: a run whose scan raises exits with code 1 and still
disconnects. -/
theorem run_exit_and_disconnect_witness :
    (mainRun scanFailEnv oneLegacyTable).exitCode = 1 ∧
    (mainRun scanFailEnv oneLegacyTable).disconnected = true :=
  (run_exit_and_disconnect oneLegacyTable scanFailEnv rfl).1 (Or.inl rfl)

/-- C1 (divergence witness): when writing the mapping artifact fails
after a successful fix pass, the process does exit with code 1 — but
because `connect` set `autocommit = False` and the script never calls
`commit()`, closing the connection rolls the transaction back: the
committed table still holds the legacy value "US/Central", so the
per-row mutations of the run do NOT remain committed. -/
theorem artifact_write_failure_rollback :
    (mainRun artifactFailEnv oneLegacyTable).exitCode = 1 ∧
    (mainRun artifactFailEnv oneLegacyTable).disconnected = true ∧
    (mainRun artifactFailEnv oneLegacyTable).report = some ⟨1, 0⟩ ∧
    (mainRun artifactFailEnv oneLegacyTable).committed = oneLegacyTable ∧
    select_timezone (mainRun artifactFailEnv oneLegacyTable).committed "1" =
      some "US/Central" := by
  decide
